import Mathlib

/-!
# Restaurant order server (`src/server.js`)

A shallow embedding of the five route handlers of the Express application in
`src/server.js` and of the part of the document store they use.

Modelling conventions.

* Documents are typed as in the data model: a line item has an optional numeric
  `price`, an optional numeric `quantity` and an optional `status` string; the
  body of a create-order request has optional string fields `phone`, `name`,
  `address`, `caller_phone` and an optional array `items`. An absent property
  (JavaScript `undefined`) is `none`.
* Numbers are IEEE-754 binary64 values (`JSNum`): NaN, the two infinities, and the
  finite values `(-1)^neg * m * 2^e`, the two zeros included. Addition and
  multiplication compute the exact result and round it to nearest, ties to even,
  with gradual underflow and overflow to infinity.
* A payload is the value handed to `res.json`; its rendering as text is not modelled.
* `Date.now()` is a natural number of milliseconds, and the text produced by
  `new Date().toISOString()` is an input of the handler.
* Every `await`ed storage call either yields its value or throws; the thrown
  error is an input (`fault`) of the handler, one per storage call.
* The orders collection is the list of its documents in insertion order, each
  with its storage identifier `_id`.
-/

set_option maxRecDepth 8000

namespace Bhawarchi

/-! ## JavaScript numbers -/

/-- A JavaScript number. A finite value is `(-1)^neg * m * 2^e`; a double is the finite
value with `m < 2^53` and `e = -1074`, or `2^52 ≤ m < 2^53` and `-1074 < e ≤ 971`, or zero,
written `fin neg 0 0`. -/
inductive JSNum where
  | nan
  | inf (neg : Bool)
  | fin (neg : Bool) (m : Nat) (e : Int)
deriving DecidableEq, Repr

/-- The number of binary digits of `n`, by halving at most `fuel` times. -/
def bitLengthAux : Nat → Nat → Nat
  | 0, _ => 0
  | fuel + 1, n => if n = 0 then 0 else bitLengthAux fuel (n / 2) + 1

/-- The number of binary digits of `n` (0 for 0). -/
def bitLength (n : Nat) : Nat := bitLengthAux n n

/-- The quotient `m / 2^s` rounded to nearest, ties to even. -/
def roundShift (m s : Nat) : Nat :=
  let q := m / 2 ^ s
  let r := m % 2 ^ s
  let half := 2 ^ (s - 1)
  if half < r ∨ (r = half ∧ q % 2 = 1) then q + 1 else q

/-- The double nearest to the exact value `(-1)^neg * m * 2^e` (ties to even): the mantissa
is cut to 53 binary digits, or fewer at the least exponent -1074, and a result of magnitude
`2^1024` or more is an infinity. -/
def roundDy (neg : Bool) (m : Nat) (e : Int) : JSNum :=
  let e' : Int := max (e + (bitLength m : Int) - 53) (-1074)
  let m' : Nat := if e' ≤ e then m * 2 ^ (e - e').toNat else roundShift m (e' - e).toNat
  if m' = 0 then JSNum.fin neg 0 0
  else if m' = 2 ^ 53 then
    (if 971 < e' + 1 then JSNum.inf neg else JSNum.fin neg (2 ^ 52) (e' + 1))
  else if 971 < e' then JSNum.inf neg
  else JSNum.fin neg m' e'

/-- The operator `+` on numbers. -/
def fadd : JSNum → JSNum → JSNum
  | JSNum.nan, _ => JSNum.nan
  | _, JSNum.nan => JSNum.nan
  | JSNum.inf a, JSNum.inf b => if a = b then JSNum.inf a else JSNum.nan
  | JSNum.inf a, JSNum.fin _ _ _ => JSNum.inf a
  | JSNum.fin _ _ _, JSNum.inf b => JSNum.inf b
  | JSNum.fin na ma ea, JSNum.fin nb mb eb =>
      let e := min ea eb
      let a := ma * 2 ^ (ea - e).toNat
      let b := mb * 2 ^ (eb - e).toNat
      if na = nb then roundDy na (a + b) e
      else if a = b then JSNum.fin false 0 0
      else if b < a then roundDy na (a - b) e
      else roundDy nb (b - a) e

/-- The operator `*` on numbers. -/
def fmul : JSNum → JSNum → JSNum
  | JSNum.nan, _ => JSNum.nan
  | _, JSNum.nan => JSNum.nan
  | JSNum.inf a, JSNum.inf b => JSNum.inf (xor a b)
  | JSNum.inf a, JSNum.fin nb mb _ => if mb = 0 then JSNum.nan else JSNum.inf (xor a nb)
  | JSNum.fin na ma _, JSNum.inf b => if ma = 0 then JSNum.nan else JSNum.inf (xor na b)
  | JSNum.fin na ma ea, JSNum.fin nb mb eb => roundDy (xor na nb) (ma * mb) (ea + eb)

/-- The number written as the integer literal `z`. -/
def JSNum.ofInt (z : Int) : JSNum := roundDy (decide (z < 0)) z.natAbs 0

/-! ## JavaScript truthiness on the typed properties -/

/-- Truthiness of an optional string property: `undefined` and `""` are falsy. -/
def truthyStr : Option String → Bool
  | none => false
  | some s => s != ""

/-- Truthiness of an optional numeric property: `undefined`, `0`, `-0` and `NaN` are falsy. -/
def truthyNum : Option JSNum → Bool
  | none => false
  | some JSNum.nan => false
  | some (JSNum.inf _) => true
  | some (JSNum.fin _ m _) => m != 0

/-- The expression `x || d` for an optional numeric property `x` and a numeric default `d`. -/
def orNum (x : Option JSNum) (d : JSNum) : JSNum :=
  match x with
  | some n => if truthyNum (some n) then n else d
  | none => d

/-- The expression `xs || []` for an optional array property (every array is truthy). -/
def orEmpty {α : Type} (xs : Option (List α)) : List α :=
  match xs with
  | some l => l
  | none => []

/-- The spread `...(x && { x })` for an optional string property: the property is
copied when `x` is truthy and nothing is added otherwise. -/
def spreadIfTruthy (x : Option String) : Option String :=
  if truthyStr x then x else none

/-! ## Data model -/

/-- A line item of an order. -/
structure Item where
  price : Option JSNum
  quantity : Option JSNum
  status : Option String
deriving DecidableEq, Repr

/-- An order document, without its storage identifier. -/
structure Order where
  phone : String
  items : Option (List Item)
  status : String
  created_at : String
  order_type : String
  name : Option String
  address : Option String
  caller_phone : Option String
  phone_source : String
deriving DecidableEq, Repr

/-- An order document as held by the orders collection. -/
structure StoredOrder where
  _id : Nat
  doc : Order
deriving DecidableEq, Repr

/-- A reservation document: an arbitrary mapping of field names to values. -/
abbrev Reservation := List (String × String)

/-- The JSON body of `POST /api/orders`. -/
structure OrderBody where
  phone : Option String
  items : Option (List Item)
  name : Option String
  address : Option String
  caller_phone : Option String
deriving DecidableEq, Repr

/-- The two clock reads of the create-order handler: `Date.now()` and
`new Date().toISOString()`. -/
structure Clock where
  now : Nat
  iso : String
deriving DecidableEq, Repr

/-- An error thrown by a storage call. -/
structure StorageError where
  detail : String
deriving DecidableEq, Repr

/-- The payload of a response: the value handed to `res.json`. -/
inductive Payload where
  | orderList (orders : List Order)
  | reservationList (reservations : List Reservation)
  | stats (total_orders confirmed_orders delivered_orders : Nat) (revenue : JSNum)
  | created (message : String) (order : StoredOrder)
  | order (order : StoredOrder)
  | message (message : String)
  | error (error : String)
deriving DecidableEq, Repr

/-- An HTTP response: status code and JSON payload. -/
structure Response where
  status : Nat
  body : Payload
deriving DecidableEq, Repr

/-! ## Storage operations -/

/-- An awaited storage call: throws `fault` when there is one, yields `v` otherwise. -/
def await {α : Type} (fault : Option StorageError) (v : α) : Except StorageError α :=
  match fault with
  | some e => Except.error e
  | none => Except.ok v

/-- The projection `{ _id: 0 }` on an order document. -/
def projectOrder (o : StoredOrder) : Order := o.doc

/-- The projection `{ _id: 0 }` on a reservation document. -/
def projectReservation (r : Reservation) : Reservation :=
  r.filter (fun kv => kv.1 != "_id")

/-- The query `{ "items.status": s }`: some element of the array `items` has `status` equal to `s`. -/
def matchesItemStatus (s : String) (o : StoredOrder) : Bool :=
  (orEmpty o.doc.items).any (fun it => it.status == some s)

/-- The call `countDocuments(query)`. -/
def countDocuments (query : StoredOrder → Bool) (orders : List StoredOrder) : Nat :=
  (orders.filter query).length

/-- The query `{ phone }`. -/
def matchesPhone (phone : String) (o : StoredOrder) : Bool :=
  o.doc.phone == phone

/-- The cursor `find({ phone }).sort({ _id: -1 }).limit(1).toArray()`. -/
def findLatestByPhone (phone : String) (orders : List StoredOrder) : List StoredOrder :=
  (List.insertionSort (fun a b => b._id ≤ a._id) (orders.filter (matchesPhone phone))).take 1

/-- The identifier given to the next inserted document: greater than every identifier in use. -/
def nextId (orders : List StoredOrder) : Nat :=
  (orders.map (fun o => o._id)).foldl max 0 + 1

/-- The call `insertOne(order)`: the document is appended with a fresh identifier. -/
def insertOne (order : Order) (orders : List StoredOrder) : StoredOrder × List StoredOrder :=
  let stored : StoredOrder := { _id := nextId orders, doc := order }
  (stored, orders ++ [stored])

/-! ## Route handlers -/

/-- Handler of `GET /api/orders`. -/
def getOrders (fault : Option StorageError) (orders : List StoredOrder) : Response :=
  match await fault (orders.map projectOrder) with
  | Except.ok docs => { status := 200, body := Payload.orderList docs }
  | Except.error _ => { status := 500, body := Payload.error "Failed to fetch orders" }

/-- Handler of `GET /api/reservations`. -/
def getReservations (fault : Option StorageError) (reservations : List Reservation) : Response :=
  match await fault (reservations.map projectReservation) with
  | Except.ok docs => { status := 200, body := Payload.reservationList docs }
  | Except.error _ => { status := 500, body := Payload.error "Failed to fetch reservations" }

/-- The inner reducer of the revenue computation: `sum + (item.price || 0) * (item.quantity || 1)`. -/
def itemStep (sum : JSNum) (item : Item) : JSNum :=
  let price := orNum item.price (JSNum.ofInt 0)
  let qty := orNum item.quantity (JSNum.ofInt 1)
  fadd sum (fmul price qty)

/-- The total of one order: `(order.items || []).reduce(itemStep, 0)`. -/
def orderTotal (order : StoredOrder) : JSNum :=
  (orEmpty order.doc.items).foldl itemStep (JSNum.ofInt 0)

/-- The revenue of a list of orders: `orders.reduce((acc, order) => acc + orderTotal, 0)`. -/
def revenue (orders : List StoredOrder) : JSNum :=
  orders.foldl (fun acc order => fadd acc (orderTotal order)) (JSNum.ofInt 0)

/-- The `try` block of `GET /api/stats`: four storage calls in sequence, then the reduction. -/
def statsBody (f1 f2 f3 f4 : Option StorageError) (orders : List StoredOrder) :
    Except StorageError Response := do
  let totalOrders ← await f1 (countDocuments (fun _ => true) orders)
  let confirmedOrders ← await f2 (countDocuments (matchesItemStatus "confirmed") orders)
  let deliveredOrders ← await f3 (countDocuments (matchesItemStatus "delivered") orders)
  let all ← await f4 orders
  pure { status := 200,
         body := Payload.stats totalOrders confirmedOrders deliveredOrders (revenue all) }

/-- Handler of `GET /api/stats`. -/
def getStats (f1 f2 f3 f4 : Option StorageError) (orders : List StoredOrder) : Response :=
  match statsBody f1 f2 f3 f4 orders with
  | Except.ok r => r
  | Except.error _ => { status := 500, body := Payload.error "Failed to fetch stats" }

/-- The value of `finalPhone`:
`phone && phone !== "unknown" ? phone : "call_" + Date.now()`. -/
def finalPhone (phone : Option String) (now : Nat) : String :=
  match phone with
  | some p => if truthyStr (some p) && p != "unknown" then p else "call_" ++ toString now
  | none => "call_" ++ toString now

/-- The object literal `order` built by `POST /api/orders`. -/
def buildOrder (body : OrderBody) (clock : Clock) : Order :=
  { phone := finalPhone body.phone clock.now
    items := some (orEmpty body.items)
    status := "confirmed"
    created_at := clock.iso
    order_type := "phone_only"
    name := spreadIfTruthy body.name
    address := spreadIfTruthy body.address
    caller_phone := if truthyStr body.caller_phone then body.caller_phone else none
    phone_source :=
      if truthyStr body.caller_phone then "extracted_from_call" else "provided_by_customer" }

/-- Handler of `POST /api/orders`: the response and the orders collection afterwards. -/
def createOrder (fault : Option StorageError) (body : OrderBody) (clock : Clock)
    (orders : List StoredOrder) : Response × List StoredOrder :=
  let order := buildOrder body clock
  match await fault (insertOne order orders) with
  | Except.ok (stored, orders') =>
      ({ status := 200, body := Payload.created "Order created successfully" stored }, orders')
  | Except.error _ =>
      ({ status := 500, body := Payload.error "Failed to create order" }, orders)

/-- Handler of `GET /api/orders/:phone`. -/
def getLatestOrder (fault : Option StorageError) (phone : String)
    (orders : List StoredOrder) : Response :=
  match await fault (findLatestByPhone phone orders) with
  | Except.ok order =>
      match order with
      | [] => { status := 404, body := Payload.message "Order not found" }
      | first :: _ => { status := 200, body := Payload.order first }
  | Except.error _ => { status := 500, body := Payload.error "Failed to fetch order" }

/-- One create-order request as it reaches the server. -/
structure CreateRequest where
  fault : Option StorageError
  body : OrderBody
  clock : Clock
deriving DecidableEq, Repr

/-- The orders collection after a sequence of create-order requests. -/
def runCreates (orders : List StoredOrder) (requests : List CreateRequest) : List StoredOrder :=
  requests.foldl (fun acc r => (createOrder r.fault r.body r.clock acc).2) orders

/-- The property names of an order document, in the order of the object literal. -/
def Order.fieldNames (o : Order) : List String :=
  ["phone"] ++ (if o.items.isSome then ["items"] else []) ++
    ["status", "created_at", "order_type"] ++
    (if o.name.isSome then ["name"] else []) ++
    (if o.address.isSome then ["address"] else []) ++
    (if o.caller_phone.isSome then ["caller_phone"] else []) ++ ["phone_source"]

/-! ## The specification's formulas, written from its words -/

/-- The integer a number stands for, when it is finite and integral. -/
def JSNum.toInt? : JSNum → Option Int
  | JSNum.fin neg m e =>
      if 0 ≤ e then some (if neg then -((m * 2 ^ e.toNat : Nat) : Int) else (m * 2 ^ e.toNat : Nat))
      else if m % 2 ^ (-e).toNat = 0 then
        some (if neg then -((m / 2 ^ (-e).toNat : Nat) : Int) else (m / 2 ^ (-e).toNat : Nat))
      else none
  | _ => none

/-- The amount of one item as the specification words it, in exact arithmetic on integral
values: `price * quantity`, a missing price counting as 0, a missing quantity as 1, and a
present price or quantity with its own value. -/
def specItemAmount (item : Item) : Option Int :=
  match (match item.price with
         | some x => x.toInt?
         | none => some 0),
        (match item.quantity with
         | some x => x.toInt?
         | none => some 1) with
  | some p, some q => some (p * q)
  | _, _ => none

/-- The sum of a list of exact amounts, when all are defined. -/
def exactSum : List (Option Int) → Option Int
  | [] => some 0
  | x :: xs =>
      match x, exactSum xs with
      | some a, some b => some (a + b)
      | _, _ => none

/-- The revenue as the specification words it: the exact sum over all orders of the exact
sum over the order's items, an order without an `items` field contributing 0. -/
def specRevenue (orders : List StoredOrder) : Option Int :=
  exactSum (orders.map (fun o => exactSum ((o.doc.items.getD []).map specItemAmount)))

/-- A numeric property with the default `d` standing for a missing or falsy value
(`0`, `-0`, `NaN`). -/
def falsyDefault (x : Option JSNum) (d : JSNum) : JSNum :=
  match x with
  | none => d
  | some JSNum.nan => d
  | some (JSNum.inf neg) => JSNum.inf neg
  | some (JSNum.fin neg m e) => if m = 0 then d else JSNum.fin neg m e

/-- The amount of one item: the double product `price * quantity`, with 0 for a missing or
falsy price and 1 for a missing or falsy quantity. -/
def falsyDefaultItemAmount (item : Item) : JSNum :=
  fmul (falsyDefault item.price (JSNum.ofInt 0)) (falsyDefault item.quantity (JSNum.ofInt 1))

/-- The double sum of a list of numbers, accumulated from 0 from left to right. -/
def floatSum (xs : List JSNum) : JSNum := xs.foldl fadd (JSNum.ofInt 0)

/-- The revenue as a double sum over the orders of the double sum over the order's items
of the amounts `falsyDefaultItemAmount`. -/
def falsyDefaultRevenue (orders : List StoredOrder) : JSNum :=
  floatSum (orders.map (fun o => floatSum ((o.doc.items.getD []).map falsyDefaultItemAmount)))

/-- A line item whose price and quantity are integers. -/
structure IntItem where
  price : Option Int
  quantity : Option Int
  status : Option String
deriving DecidableEq, Repr

/-- The item document of an integer item. -/
def IntItem.toItem (it : IntItem) : Item :=
  { price := it.price.map JSNum.ofInt, quantity := it.quantity.map JSNum.ofInt,
    status := it.status }

/-- The price and the quantity of the item are safe integers (of magnitude below `2^53`). -/
def IntItem.isSafe (it : IntItem) : Prop :=
  (it.price.getD 0).natAbs < 2 ^ 53 ∧ (it.quantity.getD 1).natAbs < 2 ^ 53

instance (it : IntItem) : Decidable it.isSafe := by
  unfold IntItem.isSafe
  exact inferInstance

/-- An integer quantity with 1 standing for a missing or zero quantity. -/
def quantityOrOne (q : Option Int) : Int :=
  match q with
  | some z => if z = 0 then 1 else z
  | none => 1

/-- The exact amount of an integer item: `price * quantity`, with 0 for a missing price and
1 for a missing or zero quantity. -/
def IntItem.amount (it : IntItem) : Int :=
  it.price.getD 0 * quantityOrOne it.quantity

/-- The exact revenue of orders given by their integer items. -/
def exactRevenue (ints : List (Option (List IntItem))) : Int :=
  (ints.map (fun l => ((l.getD []).map IntItem.amount).sum)).sum

/-- The sum of the magnitudes of the amounts of orders given by their integer items. -/
def totalMagnitude (ints : List (Option (List IntItem))) : Nat :=
  (ints.map (fun l => ((l.getD []).map (fun it => it.amount.natAbs)).sum)).sum

/-- The double of magnitude `v < 2^53` and sign `neg`, in normal form. -/
def canonNat (neg : Bool) (v : Nat) : JSNum :=
  if v = 0 then JSNum.fin neg 0 0
  else JSNum.fin neg (v * 2 ^ (53 - bitLength v)) ((bitLength v : Int) - 53)

/-- The phone rule as the specification words it: a present phone other than `"unknown"`
is kept, anything else becomes `call_<millis>`. -/
def specPhone (phone : Option String) (now : Nat) : String :=
  match phone with
  | some p => if p = "unknown" then "call_" ++ toString now else p
  | none => "call_" ++ toString now

/-- The order has at least one item whose status is `s`. -/
def hasItemWithStatus (s : String) (o : StoredOrder) : Prop :=
  ∃ items, o.doc.items = some items ∧ ∃ item ∈ items, item.status = some s

instance (s : String) (o : StoredOrder) : Decidable (hasItemWithStatus s o) := by
  unfold hasItemWithStatus
  cases o.doc.items with
  | none => exact isFalse (by simp)
  | some items =>
      exact decidable_of_iff (∃ item ∈ items, item.status = some s) (by simp)

/-! ## Reading a decimal numeral back -/

/-- The value of a decimal digit character. -/
def digitValue (c : Char) : Nat := c.toNat - 48

/-- The number read from a list of decimal digit characters, continuing from `acc`. -/
def decimalValue (acc : Nat) (l : List Char) : Nat :=
  l.foldl (fun a c => 10 * a + digitValue c) acc

/-! ## Sample data -/

/-- An item with no property at all: `{}`. -/
def emptyItem : Item := { price := none, quantity := none, status := none }

/-- The item `{ price: 10, quantity: 3 }`. -/
def tenTimesThree : Item :=
  { price := some (JSNum.ofInt 10), quantity := some (JSNum.ofInt 3), status := none }

/-- The item `{ price: 10, quantity: 0 }`. -/
def tenTimesZero : Item :=
  { price := some (JSNum.ofInt 10), quantity := some (JSNum.ofInt 0), status := none }

/-- The item `{ price: 9007199254740992, quantity: 1 }`, the price being `2^53`. -/
def bigItem : Item :=
  { price := some (JSNum.ofInt 9007199254740992), quantity := some (JSNum.ofInt 1),
    status := none }

/-- The item `{ price: 1, quantity: 1 }`. -/
def unitItem : Item :=
  { price := some (JSNum.ofInt 1), quantity := some (JSNum.ofInt 1), status := none }

/-- The item `{ price: 0.1, quantity: 3 }`, the double nearest to 0.1 being
`7205759403792794 * 2^-56`. -/
def dimeItem : Item :=
  { price := some (JSNum.fin false 7205759403792794 (-56)), quantity := some (JSNum.ofInt 3),
    status := none }

/-- The item `{ price: -2, quantity: 4 }`. -/
def refundItem : Item :=
  { price := some (JSNum.ofInt (-2)), quantity := some (JSNum.ofInt 4), status := none }

/-- An item of status `"confirmed"`. -/
def confirmedItem : Item :=
  { price := some (JSNum.ofInt 5), quantity := some (JSNum.ofInt 2), status := some "confirmed" }

/-- An item of status `"delivered"`. -/
def deliveredItem : Item :=
  { price := some (JSNum.ofInt 7), quantity := none, status := some "delivered" }

/-- An order document with the given phone and items and the fixed fields of a created order. -/
def sampleOrder (phone : String) (items : Option (List Item)) : Order :=
  { phone := phone, items := items, status := "confirmed",
    created_at := "2024-01-01T00:00:00.000Z", order_type := "phone_only",
    name := none, address := none, caller_phone := none,
    phone_source := "provided_by_customer" }

/-- A request body with no property at all: `{}`. -/
def emptyBody : OrderBody :=
  { phone := none, items := none, name := none, address := none, caller_phone := none }

/-- The body `{ phone: "5551234" }`. -/
def phoneOnlyBody : OrderBody := { emptyBody with phone := some "5551234" }

/-- The body `{ phone: "" }`. -/
def emptyPhoneBody : OrderBody := { emptyBody with phone := some "" }

/-- The body `{ caller_phone: "5559999" }`. -/
def callerOnlyBody : OrderBody := { emptyBody with caller_phone := some "5559999" }

/-- The body `{ phone: "unknown" }`. -/
def unknownPhoneBody : OrderBody := { emptyBody with phone := some "unknown" }

/-- A clock read at 1700000000000 ms. -/
def sampleClock : Clock := { now := 1700000000000, iso := "2023-11-14T22:13:20.000Z" }

/-- A clock read one millisecond after `sampleClock`. -/
def laterClock : Clock := { now := 1700000000001, iso := "2023-11-14T22:13:20.001Z" }

/-- Order A: the first of three orders with the same phone. -/
def orderA : StoredOrder := { _id := 1, doc := sampleOrder "5551234" none }

/-- Order B: the second of three orders with the same phone. -/
def orderB : StoredOrder := { _id := 2, doc := sampleOrder "5551234" (some [emptyItem]) }

/-- Order C: the last of three orders with the same phone. -/
def orderC : StoredOrder := { _id := 3, doc := sampleOrder "5551234" (some [tenTimesThree]) }

/-- Three stored orders: items `[{}, {price: 10, quantity: 3}]`, no `items` field, and items
`[{price: 10, quantity: 0}, {price: -2, quantity: 4}]`. -/
def sampleOrders : List StoredOrder :=
  [{ _id := 1, doc := sampleOrder "5551234" (some [emptyItem, tenTimesThree]) },
   { _id := 2, doc := sampleOrder "5559999" none },
   { _id := 3, doc := sampleOrder "5550000" (some [tenTimesZero, refundItem]) }]

/-- The integer items of `sampleOrders`. -/
def sampleIntItems : List (Option (List IntItem)) :=
  [some [{ price := none, quantity := none, status := none },
         { price := some 10, quantity := some 3, status := none }],
   none,
   some [{ price := some 10, quantity := some 0, status := none },
         { price := some (-2), quantity := some 4, status := none }]]

/-! ## Auxiliary lemmas -/

theorem bitLengthAux_spec (fuel : Nat) :
    ∀ n : Nat, n ≤ fuel →
      n < 2 ^ bitLengthAux fuel n ∧ (0 < n → 2 ^ (bitLengthAux fuel n - 1) ≤ n) := by
  induction fuel with
  | zero =>
      intro n hn
      have : n = 0 := by omega
      subst this
      simp [bitLengthAux]
  | succ fuel ih =>
      intro n hn
      by_cases h0 : n = 0
      · subst h0
        simp [bitLengthAux]
      · have hlt : n / 2 ≤ fuel := by omega
        obtain ⟨h1, h2⟩ := ih (n / 2) hlt
        simp only [bitLengthAux, h0, if_false, Nat.add_sub_cancel]
        constructor
        · rw [pow_succ]
          omega
        · intro _
          by_cases hh : n / 2 = 0
          · have : bitLengthAux fuel (n / 2) = 0 := by
              rw [hh]; cases fuel <;> simp [bitLengthAux]
            rw [this]
            simp
            omega
          · have h3 := h2 (by omega)
            have hpos : 0 < bitLengthAux fuel (n / 2) := by
              rcases Nat.eq_zero_or_pos (bitLengthAux fuel (n / 2)) with hz | hz
              · rw [hz] at h1; simp at h1; omega
              · exact hz
            have : bitLengthAux fuel (n / 2) = (bitLengthAux fuel (n / 2) - 1) + 1 := by omega
            rw [this, pow_succ]
            omega

theorem lt_two_pow_bitLength (n : Nat) : n < 2 ^ bitLength n :=
  (bitLengthAux_spec n n (Nat.le_refl n)).1

theorem two_pow_bitLength_le (n : Nat) (h : 0 < n) : 2 ^ (bitLength n - 1) ≤ n :=
  (bitLengthAux_spec n n (Nat.le_refl n)).2 h

theorem bitLength_pos (n : Nat) (h : 0 < n) : 0 < bitLength n := by
  rcases Nat.eq_zero_or_pos (bitLength n) with hz | hz
  · have := lt_two_pow_bitLength n
    rw [hz] at this
    simp at this
    omega
  · exact hz

theorem bitLength_unique (n a : Nat) (h1 : 2 ^ a ≤ n) (h2 : n < 2 ^ (a + 1)) :
    bitLength n = a + 1 := by
  have hn : 0 < n := lt_of_lt_of_le (Nat.two_pow_pos _) h1
  have hpos := bitLength_pos n hn
  have hlt := lt_two_pow_bitLength n
  have hle := two_pow_bitLength_le n hn
  have hA : a < bitLength n := (Nat.pow_lt_pow_iff_right (by decide : 1 < 2)).1 (lt_of_le_of_lt h1 hlt)
  have hB : bitLength n - 1 < a + 1 :=
    (Nat.pow_lt_pow_iff_right (by decide : 1 < 2)).1 (lt_of_le_of_lt hle h2)
  omega

theorem bitLength_mul_pow (n k : Nat) (h : 0 < n) :
    bitLength (n * 2 ^ k) = bitLength n + k := by
  have hpos := bitLength_pos n h
  have hlt := lt_two_pow_bitLength n
  have hle := two_pow_bitLength_le n h
  have e : bitLength n + k = (bitLength n - 1 + k) + 1 := by omega
  rw [e]
  apply bitLength_unique
  · rw [pow_add]
    exact Nat.mul_le_mul_right _ hle
  · have : bitLength n - 1 + k + 1 = bitLength n + k := by omega
    rw [this, pow_add]
    exact Nat.mul_lt_mul_of_pos_right hlt (Nat.two_pow_pos _)

theorem bitLength_le_of_lt (n j : Nat) (h : n < 2 ^ j) : bitLength n ≤ j := by
  rcases Nat.eq_zero_or_pos n with hz | hn
  · subst hz
    simp [bitLength, bitLengthAux]
  · have hle := two_pow_bitLength_le n hn
    have := (Nat.pow_lt_pow_iff_right (by decide : 1 < 2)).1 (lt_of_le_of_lt hle h)
    omega

theorem roundShift_mul_pow (q s : Nat) : roundShift (q * 2 ^ s) s = q := by
  have hp : 0 < 2 ^ s := Nat.two_pow_pos _
  have hhalf : 0 < 2 ^ (s - 1) := Nat.two_pow_pos _
  simp only [roundShift, Nat.mul_div_cancel _ hp, Nat.mul_mod_left]
  have h1 : ¬ (2 ^ (s - 1) < 0) := by omega
  have h2 : ¬ (0 = 2 ^ (s - 1)) := by omega
  simp [h1, h2]

theorem roundShift_zero (s : Nat) : roundShift 0 s = 0 := by
  have hhalf : 0 < 2 ^ (s - 1) := Nat.two_pow_pos _
  have h2 : ¬ (0 = 2 ^ (s - 1)) := by omega
  simp [roundShift, h2]

theorem roundDy_zero (neg : Bool) (e : Int) : roundDy neg 0 e = JSNum.fin neg 0 0 := by
  simp [roundDy, roundShift_zero]

theorem roundDy_exact (neg : Bool) (v k : Nat) (hv : v < 2 ^ 53) :
    roundDy neg (v * 2 ^ k) (-(k : Int)) = canonNat neg v := by
  rcases Nat.eq_zero_or_pos v with hz | hpos
  · subst hz
    simp [roundDy_zero, canonNat]
  · have hL := bitLength_pos v hpos
    have hL53 := bitLength_le_of_lt v 53 hv
    have hbl := bitLength_mul_pow v k hpos
    have hlt := lt_two_pow_bitLength v
    have hm : v * 2 ^ (53 - bitLength v) < 2 ^ 53 := by
      have h53 : (2 : Nat) ^ 53 = 2 ^ bitLength v * 2 ^ (53 - bitLength v) := by
        rw [← pow_add]; congr 1; omega
      rw [h53]
      exact Nat.mul_lt_mul_of_pos_right hlt (Nat.two_pow_pos _)
    have hm0 : v * 2 ^ (53 - bitLength v) ≠ 0 :=
      Nat.mul_ne_zero (by omega) (Nat.pos_iff_ne_zero.1 (Nat.two_pow_pos _))
    have he' : max (-(k : Int) + ((bitLength (v * 2 ^ k) : Nat) : Int) - 53) (-1074) =
        (bitLength v : Int) - 53 := by
      rw [hbl]; push_cast; omega
    have hmant : (if (bitLength v : Int) - 53 ≤ -(k : Int)
          then v * 2 ^ k * 2 ^ (-(k : Int) - ((bitLength v : Int) - 53)).toNat
          else roundShift (v * 2 ^ k) (((bitLength v : Int) - 53) - (-(k : Int))).toNat) =
        v * 2 ^ (53 - bitLength v) := by
      by_cases hc : (bitLength v : Int) - 53 ≤ -(k : Int)
      · rw [if_pos hc]
        have : (-(k : Int) - ((bitLength v : Int) - 53)).toNat = 53 - bitLength v - k := by omega
        rw [this, Nat.mul_assoc, ← pow_add]
        congr 2
        omega
      · rw [if_neg hc]
        have hs : (((bitLength v : Int) - 53) - (-(k : Int))).toNat = bitLength v + k - 53 := by
          omega
        rw [hs]
        have hk : k = (53 - bitLength v) + (bitLength v + k - 53) := by omega
        have : v * 2 ^ k = (v * 2 ^ (53 - bitLength v)) * 2 ^ (bitLength v + k - 53) := by
          rw [Nat.mul_assoc, ← pow_add, ← hk]
        rw [this]
        exact roundShift_mul_pow _ _
    unfold roundDy
    simp only [he', hmant]
    rw [if_neg hm0, if_neg (by omega), if_neg (by omega)]
    simp [canonNat, Nat.pos_iff_ne_zero.1 hpos]


theorem canonNat_shape (neg : Bool) (v : Nat) (hv : v < 2 ^ 53) :
    ∃ j : Nat, canonNat neg v = JSNum.fin neg (v * 2 ^ j) (-(j : Int)) := by
  rcases Nat.eq_zero_or_pos v with hz | hpos
  · subst hz
    exact ⟨0, by simp [canonNat]⟩
  · refine ⟨53 - bitLength v, ?_⟩
    have hle := bitLength_le_of_lt v 53 hv
    simp only [canonNat, Nat.pos_iff_ne_zero.1 hpos, if_false]
    congr 1
    omega

theorem fadd_shape (na nb : Bool) (A B j k : Nat) :
    fadd (JSNum.fin na (A * 2 ^ j) (-(j : Int))) (JSNum.fin nb (B * 2 ^ k) (-(k : Int))) =
      if na = nb then roundDy na ((A + B) * 2 ^ max j k) (-((max j k : Nat) : Int))
      else if A = B then JSNum.fin false 0 0
      else if B < A then roundDy na ((A - B) * 2 ^ max j k) (-((max j k : Nat) : Int))
      else roundDy nb ((B - A) * 2 ^ max j k) (-((max j k : Nat) : Int)) := by
  have hp : 0 < 2 ^ max j k := Nat.two_pow_pos _
  have he : min (-(j : Int)) (-(k : Int)) = -((max j k : Nat) : Int) := by
    rcases Nat.le_total j k with h | h
    · rw [max_eq_right h]; omega
    · rw [max_eq_left h]; omega
  have ha : A * 2 ^ j * 2 ^ (-(j : Int) - -((max j k : Nat) : Int)).toNat = A * 2 ^ max j k := by
    have : (-(j : Int) - -((max j k : Nat) : Int)).toNat = max j k - j := by
      have := Nat.le_max_left j k
      omega
    rw [this, Nat.mul_assoc, ← pow_add]
    congr 2
    have := Nat.le_max_left j k
    omega
  have hb : B * 2 ^ k * 2 ^ (-(k : Int) - -((max j k : Nat) : Int)).toNat = B * 2 ^ max j k := by
    have : (-(k : Int) - -((max j k : Nat) : Int)).toNat = max j k - k := by
      have := Nat.le_max_right j k
      omega
    rw [this, Nat.mul_assoc, ← pow_add]
    congr 2
    have := Nat.le_max_right j k
    omega
  simp only [fadd, he, ha, hb]
  have heq : (A * 2 ^ max j k = B * 2 ^ max j k) ↔ A = B :=
    ⟨fun h => Nat.eq_of_mul_eq_mul_right hp h, fun h => by rw [h]⟩
  have hlt : (B * 2 ^ max j k < A * 2 ^ max j k) ↔ B < A :=
    ⟨fun h => Nat.lt_of_mul_lt_mul_right h, fun h => Nat.mul_lt_mul_of_pos_right h hp⟩
  simp only [heq, hlt, ← Nat.add_mul, ← Nat.sub_mul]

theorem fmul_shape (na nb : Bool) (A B j k : Nat) :
    fmul (JSNum.fin na (A * 2 ^ j) (-(j : Int))) (JSNum.fin nb (B * 2 ^ k) (-(k : Int))) =
      roundDy (xor na nb) (A * B * 2 ^ (j + k)) (-((j + k : Nat) : Int)) := by
  have h1 : A * 2 ^ j * (B * 2 ^ k) = A * B * 2 ^ (j + k) := by
    rw [pow_add]; ring
  have h2 : -(j : Int) + -(k : Int) = -((j + k : Nat) : Int) := by
    push_cast; ring
  simp only [fmul, h1, h2]

theorem fadd_canonNat (na nb : Bool) (A B : Nat) (h : A + B < 2 ^ 53) :
    fadd (canonNat na A) (canonNat nb B) =
      if na = nb then canonNat na (A + B)
      else if A = B then JSNum.fin false 0 0
      else if B < A then canonNat na (A - B)
      else canonNat nb (B - A) := by
  obtain ⟨j, hj⟩ := canonNat_shape na A (by omega)
  obtain ⟨k, hk⟩ := canonNat_shape nb B (by omega)
  rw [hj, hk, fadd_shape, roundDy_exact _ _ _ h, roundDy_exact na (A - B) _ (by omega),
    roundDy_exact nb (B - A) _ (by omega)]

theorem fmul_canonNat (na nb : Bool) (A B : Nat) (hA : A < 2 ^ 53) (hB : B < 2 ^ 53)
    (h : A * B < 2 ^ 53) :
    fmul (canonNat na A) (canonNat nb B) = canonNat (xor na nb) (A * B) := by
  obtain ⟨j, hj⟩ := canonNat_shape na A hA
  obtain ⟨k, hk⟩ := canonNat_shape nb B hB
  rw [hj, hk, fmul_shape, roundDy_exact _ _ _ h]

theorem ofInt_eq_canonNat (z : Int) (h : z.natAbs < 2 ^ 53) :
    JSNum.ofInt z = canonNat (decide (z < 0)) z.natAbs := by
  have := roundDy_exact (decide (z < 0)) z.natAbs 0 h
  simpa [JSNum.ofInt] using this

theorem ofInt_zero : JSNum.ofInt 0 = JSNum.fin false 0 0 := by decide

theorem natAbs_signed (z : Int) :
    z = if decide (z < 0) = true then -((z.natAbs : Nat) : Int) else ((z.natAbs : Nat) : Int) := by
  by_cases h : z < 0
  · simp only [h, decide_True, if_true]; omega
  · simp only [h, decide_False, Bool.false_eq_true, if_false]; omega

theorem fadd_ofInt_canonNat (a : Int) (s : Bool) (B : Nat) (h : a.natAbs + B < 2 ^ 53) :
    fadd (JSNum.ofInt a) (canonNat s B) =
      JSNum.ofInt (a + if s = true then -(B : Int) else (B : Int)) := by
  rw [ofInt_eq_canonNat a (by omega), fadd_canonNat _ _ _ _ h]
  by_cases ha : a < 0 <;> cases s
  all_goals
    simp only [ha, decide_True, decide_False, Bool.false_eq_true, if_false, if_true,
      Bool.true_eq_false]
  · -- a < 0, second operand non-negative
    by_cases h1 : a.natAbs = B
    · have h0 : a + (B : Int) = 0 := by omega
      rw [if_pos h1, h0, ofInt_zero]
    · rw [if_neg h1]
      by_cases h2 : B < a.natAbs
      · rw [if_pos h2, ofInt_eq_canonNat _ (by omega)]
        have hs : decide (a + (B : Int) < 0) = true := by simp; omega
        have hn : (a + (B : Int)).natAbs = a.natAbs - B := by omega
        rw [hs, hn]
      · rw [if_neg h2, ofInt_eq_canonNat _ (by omega)]
        have hs : decide (a + (B : Int) < 0) = false := by simp; omega
        have hn : (a + (B : Int)).natAbs = B - a.natAbs := by omega
        rw [hs, hn]
  · -- a < 0, second operand non-positive
    rw [ofInt_eq_canonNat _ (by omega)]
    have hs : decide (a + -(B : Int) < 0) = true := by simp; omega
    have hn : (a + -(B : Int)).natAbs = a.natAbs + B := by omega
    rw [hs, hn]
  · -- 0 ≤ a, second operand non-negative
    rw [ofInt_eq_canonNat _ (by omega)]
    have hs : decide (a + (B : Int) < 0) = false := by simp; omega
    have hn : (a + (B : Int)).natAbs = a.natAbs + B := by omega
    rw [hs, hn]
  · -- 0 ≤ a, second operand non-positive
    by_cases h1 : a.natAbs = B
    · have h0 : a + -(B : Int) = 0 := by omega
      rw [if_pos h1, h0, ofInt_zero]
    · rw [if_neg h1]
      by_cases h2 : B < a.natAbs
      · rw [if_pos h2, ofInt_eq_canonNat _ (by omega)]
        have hs : decide (a + -(B : Int) < 0) = false := by simp; omega
        have hn : (a + -(B : Int)).natAbs = a.natAbs - B := by omega
        rw [hs, hn]
      · rw [if_neg h2, ofInt_eq_canonNat _ (by omega)]
        have hs : decide (a + -(B : Int) < 0) = true := by simp; omega
        have hn : (a + -(B : Int)).natAbs = B - a.natAbs := by omega
        rw [hs, hn]

theorem fadd_ofInt_ofInt (a b : Int) (h : a.natAbs + b.natAbs < 2 ^ 53) :
    fadd (JSNum.ofInt a) (JSNum.ofInt b) = JSNum.ofInt (a + b) := by
  rw [ofInt_eq_canonNat b (by omega), fadd_ofInt_canonNat a _ _ h, ← natAbs_signed b]

theorem fmul_ofInt_ofInt (p q : Int) (hp : p.natAbs < 2 ^ 53) (hq : q.natAbs < 2 ^ 53)
    (h : (p * q).natAbs < 2 ^ 53) :
    ∃ s : Bool, fmul (JSNum.ofInt p) (JSNum.ofInt q) = canonNat s (p * q).natAbs ∧
      p * q = if s = true then -(((p * q).natAbs : Nat) : Int) else (((p * q).natAbs : Nat) : Int) := by
  rw [Int.natAbs_mul] at h
  by_cases h0 : p * q = 0
  · refine ⟨xor (decide (p < 0)) (decide (q < 0)), ?_, ?_⟩
    · rw [ofInt_eq_canonNat p hp, ofInt_eq_canonNat q hq, fmul_canonNat _ _ _ _ hp hq h,
        Int.natAbs_mul]
    · rw [h0]; simp
  · refine ⟨decide (p * q < 0), ?_, natAbs_signed (p * q)⟩
    rw [ofInt_eq_canonNat p hp, ofInt_eq_canonNat q hq, fmul_canonNat _ _ _ _ hp hq h,
      Int.natAbs_mul]
    congr 1
    have hp0 : p ≠ 0 := fun hz => h0 (by rw [hz, zero_mul])
    have hq0 : q ≠ 0 := fun hz => h0 (by rw [hz, mul_zero])
    rcases lt_or_gt_of_ne hp0 with hpn | hpp <;> rcases lt_or_gt_of_ne hq0 with hqn | hqp
    · have : ¬ p * q < 0 := not_lt.2 (le_of_lt (mul_pos_of_neg_of_neg hpn hqn))
      simp [hpn, hqn, this]
    · have : p * q < 0 := mul_neg_of_neg_of_pos hpn hqp
      simp [hpn, not_lt.2 (le_of_lt hqp), this]
    · have : p * q < 0 := mul_neg_of_pos_of_neg hpp hqn
      simp [hqn, not_lt.2 (le_of_lt hpp), this]
    · have : ¬ p * q < 0 := not_lt.2 (le_of_lt (mul_pos hpp hqp))
      simp [not_lt.2 (le_of_lt hpp), not_lt.2 (le_of_lt hqp), this]

theorem truthyNum_ofInt (z : Int) (h : z.natAbs < 2 ^ 53) :
    truthyNum (some (JSNum.ofInt z)) = decide (z ≠ 0) := by
  rw [ofInt_eq_canonNat z h]
  by_cases hz : z = 0
  · subst hz; simp [canonNat, truthyNum]
  · have hv : z.natAbs ≠ 0 := by omega
    have hm : z.natAbs * 2 ^ (53 - bitLength z.natAbs) ≠ 0 :=
      Nat.mul_ne_zero hv (Nat.pos_iff_ne_zero.1 (Nat.two_pow_pos _))
    simp [canonNat, truthyNum, hv, hz, hm]

theorem orNum_ofInt_price (p : Option Int) (h : (p.getD 0).natAbs < 2 ^ 53) :
    orNum (p.map JSNum.ofInt) (JSNum.ofInt 0) = JSNum.ofInt (p.getD 0) := by
  cases p with
  | none => rfl
  | some z =>
      have hz : z.natAbs < 2 ^ 53 := h
      simp only [Option.map_some', orNum, truthyNum_ofInt z hz, Option.getD_some]
      by_cases h0 : z = 0
      · subst h0; simp
      · simp [h0]

theorem orNum_ofInt_quantity (q : Option Int) (h : (q.getD 1).natAbs < 2 ^ 53) :
    orNum (q.map JSNum.ofInt) (JSNum.ofInt 1) = JSNum.ofInt (quantityOrOne q) := by
  cases q with
  | none => rfl
  | some z =>
      have hz : z.natAbs < 2 ^ 53 := h
      simp only [Option.map_some', orNum, truthyNum_ofInt z hz, quantityOrOne]
      by_cases h0 : z = 0
      · subst h0; simp
      · simp [h0]

theorem quantityOrOne_safe (q : Option Int) (h : (q.getD 1).natAbs < 2 ^ 53) :
    (quantityOrOne q).natAbs < 2 ^ 53 := by
  cases q with
  | none => simp [quantityOrOne]
  | some z =>
      have hz : z.natAbs < 2 ^ 53 := h
      by_cases h0 : z = 0
      · simp [quantityOrOne, h0]
      · simpa [quantityOrOne, h0] using hz

theorem itemStep_exact (a : Int) (it : IntItem) (hs : it.isSafe)
    (h : a.natAbs + it.amount.natAbs < 2 ^ 53) :
    itemStep (JSNum.ofInt a) it.toItem = JSNum.ofInt (a + it.amount) := by
  have hamount : it.amount = it.price.getD 0 * quantityOrOne it.quantity := rfl
  obtain ⟨s, hmul, hsign⟩ := fmul_ofInt_ofInt (it.price.getD 0) (quantityOrOne it.quantity)
    hs.1 (quantityOrOne_safe _ hs.2) (by rw [← hamount]; omega)
  rw [← hamount] at hmul hsign
  simp only [itemStep, IntItem.toItem, orNum_ofInt_price it.price hs.1,
    orNum_ofInt_quantity it.quantity hs.2]
  rw [hmul, fadd_ofInt_canonNat a s _ h, ← hsign]

theorem foldl_itemStep_exact (its : List IntItem) :
    ∀ a : Int, (∀ it ∈ its, it.isSafe) →
      a.natAbs + (its.map (fun it => it.amount.natAbs)).sum < 2 ^ 53 →
      (its.map IntItem.toItem).foldl itemStep (JSNum.ofInt a) =
        JSNum.ofInt (a + (its.map IntItem.amount).sum) := by
  induction its with
  | nil => intro a _ _; simp
  | cons it rest ih =>
      intro a hs h
      simp only [List.map_cons, List.sum_cons, List.foldl_cons] at h ⊢
      rw [itemStep_exact a it (hs it (List.mem_cons_self _ _)) (by omega),
        ih (a + it.amount) (fun x hx => hs x (List.mem_cons_of_mem _ hx)) (by omega)]
      congr 1
      ring

theorem natAbs_sum_le (its : List IntItem) :
    ((its.map IntItem.amount).sum).natAbs ≤ (its.map (fun it => it.amount.natAbs)).sum := by
  induction its with
  | nil => simp
  | cons it rest ih =>
      simp only [List.map_cons, List.sum_cons]
      omega

theorem orderTotal_exact (o : StoredOrder) (l : Option (List IntItem))
    (hitems : o.doc.items = l.map (List.map IntItem.toItem))
    (hs : ∀ it ∈ l.getD [], it.isSafe)
    (h : ((l.getD []).map (fun it => it.amount.natAbs)).sum < 2 ^ 53) :
    orderTotal o = JSNum.ofInt (((l.getD []).map IntItem.amount).sum) := by
  have hlist : orEmpty o.doc.items = (l.getD []).map IntItem.toItem := by
    rw [hitems]
    cases l <;> rfl
  rw [orderTotal, hlist, foldl_itemStep_exact (l.getD []) 0 hs (by simpa using h)]
  simp

theorem revenue_exact (orders : List StoredOrder) :
    ∀ (ints : List (Option (List IntItem))) (a : Int),
      orders.map (fun o => o.doc.items) = ints.map (Option.map (List.map IntItem.toItem)) →
      (∀ l ∈ ints, ∀ it ∈ l.getD [], it.isSafe) →
      a.natAbs + totalMagnitude ints < 2 ^ 53 →
      orders.foldl (fun acc order => fadd acc (orderTotal order)) (JSNum.ofInt a) =
        JSNum.ofInt (a + exactRevenue ints) := by
  induction orders with
  | nil =>
      intro ints a hmap _ _
      cases ints with
      | nil => simp [exactRevenue]
      | cons l rest => simp at hmap
  | cons o rest ih =>
      intro ints a hmap hs h
      cases ints with
      | nil => simp at hmap
      | cons l ls =>
          simp only [List.map_cons, List.cons.injEq] at hmap
          simp only [totalMagnitude, List.map_cons, List.sum_cons] at h
          have hle := natAbs_sum_le (l.getD [])
          have ht := orderTotal_exact o l hmap.1 (hs l (List.mem_cons_self _ _)) (by omega)
          simp only [List.foldl_cons, ht]
          rw [fadd_ofInt_ofInt a _ (by omega),
            ih ls _ hmap.2 (fun x hx => hs x (List.mem_cons_of_mem _ hx))
              (by simp only [totalMagnitude]; omega)]
          simp only [exactRevenue, List.map_cons, List.sum_cons]
          congr 1
          ring

theorem orEmpty_eq_getD {α : Type} (xs : Option (List α)) : orEmpty xs = xs.getD [] := by
  cases xs <;> rfl

theorem orNum_eq_falsyDefault (x : Option JSNum) (d : JSNum) : orNum x d = falsyDefault x d := by
  cases x with
  | none => rfl
  | some n =>
      cases n with
      | nan => rfl
      | inf neg => rfl
      | fin neg m e =>
          by_cases h : m = 0
          · subst h; simp [orNum, truthyNum, falsyDefault]
          · simp [orNum, truthyNum, falsyDefault, h]

theorem orderTotal_eq (o : StoredOrder) :
    orderTotal o = floatSum ((o.doc.items.getD []).map falsyDefaultItemAmount) := by
  have h : itemStep = fun (sum : JSNum) (item : Item) => fadd sum (falsyDefaultItemAmount item) := by
    funext sum item
    simp [itemStep, falsyDefaultItemAmount, orNum_eq_falsyDefault]
  rw [orderTotal, h, orEmpty_eq_getD, floatSum, List.foldl_map]

theorem revenue_eq (orders : List StoredOrder) : revenue orders = falsyDefaultRevenue orders := by
  have h : (fun (acc : JSNum) (order : StoredOrder) => fadd acc (orderTotal order)) =
      fun acc order =>
        fadd acc (floatSum ((order.doc.items.getD []).map falsyDefaultItemAmount)) := by
    funext acc order
    rw [orderTotal_eq]
  rw [revenue, h, falsyDefaultRevenue, floatSum, List.foldl_map]

theorem getStats_ok (orders : List StoredOrder) :
    getStats none none none none orders =
      { status := 200,
        body := Payload.stats (countDocuments (fun _ => true) orders)
          (countDocuments (matchesItemStatus "confirmed") orders)
          (countDocuments (matchesItemStatus "delivered") orders) (revenue orders) } := rfl

theorem matchesItemStatus_iff (s : String) (o : StoredOrder) :
    matchesItemStatus s o = true ↔ hasItemWithStatus s o := by
  unfold matchesItemStatus hasItemWithStatus
  cases o.doc.items with
  | none => simp [orEmpty]
  | some items => simp [orEmpty, List.any_eq_true]

theorem countDocuments_itemStatus (s : String) (orders : List StoredOrder) :
    countDocuments (matchesItemStatus s) orders =
      (orders.filter (fun o => decide (hasItemWithStatus s o))).length := by
  have h : matchesItemStatus s = fun o => decide (hasItemWithStatus s o) := by
    funext o
    by_cases ho : hasItemWithStatus s o
    · simp [ho, (matchesItemStatus_iff s o).2 ho]
    · have : matchesItemStatus s o ≠ true := fun hm => ho ((matchesItemStatus_iff s o).1 hm)
      simp [ho, this]
  rw [countDocuments, h]

theorem countDocuments_append_match (q : StoredOrder → Bool) (orders : List StoredOrder)
    (o : StoredOrder) (h : q o = true) :
    countDocuments q (orders ++ [o]) = countDocuments q orders + 1 := by
  simp [countDocuments, List.filter_append, h]

theorem revenue_append (orders : List StoredOrder) (o : StoredOrder) :
    revenue (orders ++ [o]) = fadd (revenue orders) (orderTotal o) := by
  simp [revenue, List.foldl_append]

theorem digitValue_digitChar (k : Nat) (h : k < 10) : digitValue (Nat.digitChar k) = k := by
  interval_cases k <;> rfl

theorem isDigit_digitChar (k : Nat) (h : k < 10) : (Nat.digitChar k).isDigit = true := by
  interval_cases k <;> rfl

theorem decimalValue_toDigitsCore (fuel : Nat) :
    ∀ (n : Nat) (ds : List Char), n < fuel →
      decimalValue 0 (Nat.toDigitsCore 10 fuel n ds) = decimalValue n ds := by
  induction fuel with
  | zero => intro n ds h; omega
  | succ fuel ih =>
      intro n ds h
      have hd : digitValue (Nat.digitChar (n % 10)) = n % 10 :=
        digitValue_digitChar _ (Nat.mod_lt _ (by decide))
      by_cases h0 : n / 10 = 0
      · have hn : n % 10 = n := Nat.mod_eq_of_lt (by omega)
        rw [hn] at hd
        simp [Nat.toDigitsCore, h0, decimalValue, hd, hn]
      · have hlt : n / 10 < fuel := by omega
        have := ih (n / 10) (Nat.digitChar (n % 10) :: ds) hlt
        simp only [Nat.toDigitsCore, h0, if_false]
        rw [this]
        simp only [decimalValue, List.foldl_cons, hd]
        congr 1
        omega

theorem isDigit_toDigitsCore (fuel : Nat) :
    ∀ (n : Nat) (ds : List Char), (∀ c ∈ ds, c.isDigit = true) →
      ∀ c ∈ Nat.toDigitsCore 10 fuel n ds, c.isDigit = true := by
  induction fuel with
  | zero => intro n ds h; simpa [Nat.toDigitsCore] using h
  | succ fuel ih =>
      intro n ds h
      have hd : (Nat.digitChar (n % 10)).isDigit = true :=
        isDigit_digitChar _ (Nat.mod_lt _ (by decide))
      have hcons : ∀ c ∈ Nat.digitChar (n % 10) :: ds, c.isDigit = true := by
        intro c hc
        rcases List.mem_cons.1 hc with rfl | hc
        · exact hd
        · exact h c hc
      by_cases h0 : n / 10 = 0
      · simpa [Nat.toDigitsCore, h0] using hcons
      · simp only [Nat.toDigitsCore, h0, if_false]
        exact ih _ _ hcons

theorem toDigitsCore_ne_nil (fuel : Nat) :
    ∀ (n : Nat) (ds : List Char), ds ≠ [] → Nat.toDigitsCore 10 fuel n ds ≠ [] := by
  induction fuel with
  | zero => intro n ds h; simpa [Nat.toDigitsCore] using h
  | succ fuel ih =>
      intro n ds _
      by_cases h0 : n / 10 = 0
      · simp [Nat.toDigitsCore, h0]
      · simp only [Nat.toDigitsCore, h0, if_false]
        exact ih _ _ (List.cons_ne_nil _ _)

theorem toString_nat_data (n : Nat) : (toString n).data = Nat.toDigits 10 n := rfl

theorem toString_nat_injective (a b : Nat) (h : toString a = toString b) : a = b := by
  have hd : Nat.toDigits 10 a = Nat.toDigits 10 b := by
    rw [← toString_nat_data, ← toString_nat_data, h]
  have ha := decimalValue_toDigitsCore (a + 1) a [] (Nat.lt_succ_self a)
  have hb := decimalValue_toDigitsCore (b + 1) b [] (Nat.lt_succ_self b)
  simp only [Nat.toDigits] at hd
  rw [hd, hb] at ha
  simpa [decimalValue] using ha.symm

theorem toString_nat_digits (n : Nat) :
    (toString n).data ≠ [] ∧ ∀ c ∈ (toString n).data, c.isDigit = true := by
  rw [toString_nat_data]
  constructor
  · by_cases h0 : n / 10 = 0
    · simp [Nat.toDigits, Nat.toDigitsCore, h0]
    · simp only [Nat.toDigits, Nat.toDigitsCore, h0, if_false]
      exact toDigitsCore_ne_nil _ _ _ (List.cons_ne_nil _ _)
  · exact isDigit_toDigitsCore _ _ _ (by simp)

theorem call_append_injective (a b : String) (h : "call_" ++ a = "call_" ++ b) : a = b := by
  have := congrArg String.data h
  simp only [String.data_append] at this
  exact String.ext (List.append_cancel_left this)

theorem call_append_ne_empty (a : String) : "call_" ++ a ≠ "" := by
  intro h
  have := congrArg String.data h
  simp only [String.data_append] at this
  exact absurd this (by simp)

theorem finalPhone_ne_empty (phone : Option String) (now : Nat) : finalPhone phone now ≠ "" := by
  cases phone with
  | none => exact call_append_ne_empty _
  | some p =>
      by_cases h : (truthyStr (some p) && p != "unknown") = true
      · have hp : p ≠ "" := by
          intro hp
          subst hp
          simp [truthyStr] at h
        simpa [finalPhone, h] using hp
      · simpa [finalPhone, h] using call_append_ne_empty (toString now)

theorem createOrder_keeps_phones (fault : Option StorageError) (body : OrderBody) (clock : Clock)
    (orders : List StoredOrder) (h : ∀ o ∈ orders, o.doc.phone ≠ "") :
    ∀ o ∈ (createOrder fault body clock orders).2, o.doc.phone ≠ "" := by
  cases fault with
  | some e => exact h
  | none =>
      intro o ho
      have ho' : o ∈ orders ++ [{ _id := nextId orders, doc := buildOrder body clock }] := ho
      rcases List.mem_append.1 ho' with hin | hin
      · exact h o hin
      · rw [List.mem_singleton] at hin
        subst hin
        exact finalPhone_ne_empty _ _

theorem findLatestByPhone_cases (p : String) (orders : List StoredOrder) :
    (findLatestByPhone p orders = [] ∧ ∀ o ∈ orders, o.doc.phone ≠ p) ∨
    (∃ latest, findLatestByPhone p orders = [latest] ∧ latest ∈ orders ∧ latest.doc.phone = p ∧
      ∀ o ∈ orders, o.doc.phone = p → o._id ≤ latest._id) := by
  have hperm := List.perm_insertionSort (fun a b : StoredOrder => b._id ≤ a._id)
    (orders.filter (matchesPhone p))
  have hsorted := @List.sorted_insertionSort StoredOrder (fun a b => b._id ≤ a._id) _
    ⟨fun a b => Nat.le_total b._id a._id⟩ ⟨fun _ _ _ hab hbc => Nat.le_trans hbc hab⟩
    (orders.filter (matchesPhone p))
  have hmem : ∀ o, o ∈ orders.filter (matchesPhone p) ↔ o ∈ orders ∧ o.doc.phone = p := by
    intro o
    simp [List.mem_filter, matchesPhone]
  unfold findLatestByPhone
  cases hs : List.insertionSort (fun a b : StoredOrder => b._id ≤ a._id)
      (orders.filter (matchesPhone p)) with
  | nil =>
      left
      rw [hs] at hperm
      have hnil : orders.filter (matchesPhone p) = [] := hperm.symm.eq_nil
      refine ⟨rfl, fun o ho hp => ?_⟩
      have : o ∈ orders.filter (matchesPhone p) := (hmem o).2 ⟨ho, hp⟩
      rw [hnil] at this
      exact List.not_mem_nil o this
  | cons a rest =>
      right
      rw [hs] at hperm hsorted
      have ha : a ∈ orders.filter (matchesPhone p) := hperm.mem_iff.1 (List.mem_cons_self a rest)
      refine ⟨a, rfl, ((hmem a).1 ha).1, ((hmem a).1 ha).2, fun o ho hp => ?_⟩
      have ho' : o ∈ a :: rest := hperm.mem_iff.2 ((hmem o).2 ⟨ho, hp⟩)
      rcases List.mem_cons.1 ho' with rfl | hrest
      · exact Nat.le_refl _
      · exact List.rel_of_sorted_cons hsorted o hrest

theorem getLast?_of_increasing_ids (l : List StoredOrder)
    (hl : l.Pairwise (fun a b => a._id < b._id)) (x : StoredOrder) (hx : x ∈ l)
    (hmax : ∀ o ∈ l, o._id ≤ x._id) : l.getLast? = some x := by
  have hne : l ≠ [] := List.ne_nil_of_mem hx
  rw [List.getLast?_eq_getLast l hne]
  obtain ⟨ys, hys⟩ := List.getLast?_eq_some_iff.1 (List.getLast?_eq_getLast l hne)
  rw [hys] at hl hx
  rcases List.mem_append.1 hx with hin | hin
  · have hlt := (List.pairwise_append.1 hl).2.2 x hin (l.getLast hne) (List.mem_singleton_self _)
    have hle := hmax (l.getLast hne) (List.getLast_mem hne)
    omega
  · rw [List.mem_singleton] at hin
    rw [hin]

/-! ## Claims -/

/-- C1 (as amended): with no storage failure, the revenue answered by `GET /api/stats` is
the sum, accumulated from 0 from left to right in double-precision arithmetic, over all
orders of the sum, accumulated likewise, over the order's items (none when `items` is
missing) of the double product `price * quantity`, where a missing or falsy price counts as
0 and a missing or falsy (in particular zero) quantity counts as 1, any other price or
quantity being used with its own value. When every price and quantity is a safe integer
and the magnitudes of the amounts add up to less than `2^53`, no rounding occurs and the
revenue is the exact integer sum. The order with items `[{}, {price: 10, quantity: 3}]`
gives revenue 30, and the order with items `[{price: 0.1, quantity: 3}]` gives the double
`5404319552844596 * 2^-54`, printed 0.30000000000000004. -/
theorem stats_revenue_falsy_default :
    (∀ orders : List StoredOrder,
      getStats none none none none orders =
        { status := 200,
          body := Payload.stats (countDocuments (fun _ => true) orders)
            (countDocuments (matchesItemStatus "confirmed") orders)
            (countDocuments (matchesItemStatus "delivered") orders)
            (falsyDefaultRevenue orders) }) ∧
    (∀ (orders : List StoredOrder) (ints : List (Option (List IntItem))),
      orders.map (fun o => o.doc.items) = ints.map (Option.map (List.map IntItem.toItem)) →
      (∀ l ∈ ints, ∀ it ∈ l.getD [], it.isSafe) →
      totalMagnitude ints < 2 ^ 53 →
      getStats none none none none orders =
        { status := 200,
          body := Payload.stats (countDocuments (fun _ => true) orders)
            (countDocuments (matchesItemStatus "confirmed") orders)
            (countDocuments (matchesItemStatus "delivered") orders)
            (JSNum.ofInt (exactRevenue ints)) }) ∧
    getStats none none none none
        [{ _id := 1, doc := sampleOrder "5551234" (some [emptyItem, tenTimesThree]) }] =
      { status := 200, body := Payload.stats 1 0 0 (JSNum.ofInt 30) } ∧
    getStats none none none none
        [{ _id := 1, doc := sampleOrder "5551234" (some [dimeItem]) }] =
      { status := 200,
        body := Payload.stats 1 0 0 (JSNum.fin false 5404319552844596 (-54)) } := by
  refine ⟨fun orders => ?_, fun orders ints hmap hsafe hbound => ?_, by decide, by decide⟩
  · rw [getStats_ok, revenue_eq]
  · rw [getStats_ok, revenue, revenue_exact orders ints 0 hmap hsafe (by simpa using hbound)]
    simp

/-- C1 (witness): three orders with integer items, one of them without `items`, with a zero
quantity and a negative price among the items: the revenue is the exact sum 32. -/
theorem stats_revenue_falsy_default_witness :
    sampleOrders.map (fun o => o.doc.items) =
      sampleIntItems.map (Option.map (List.map IntItem.toItem)) ∧
    (∀ l ∈ sampleIntItems, ∀ it ∈ l.getD [], it.isSafe) ∧
    totalMagnitude sampleIntItems < 2 ^ 53 ∧
    exactRevenue sampleIntItems = 32 ∧
    getStats none none none none sampleOrders =
      { status := 200,
        body := Payload.stats (countDocuments (fun _ => true) sampleOrders)
          (countDocuments (matchesItemStatus "confirmed") sampleOrders)
          (countDocuments (matchesItemStatus "delivered") sampleOrders)
          (JSNum.ofInt (exactRevenue sampleIntItems)) } :=
  ⟨by decide, by decide, by decide, by decide,
    stats_revenue_falsy_default.2.1 sampleOrders sampleIntItems (by decide) (by decide)
      (by decide)⟩

/-- C1 (counterexample): for the single order with items `[{price: 10, quantity: 0}]` the
handler answers revenue 10, while the claimed formula, using the present quantity 0 with
its own value, gives 0; and for the single order with items
`[{price: 9007199254740992, quantity: 1}, {price: 1, quantity: 1}]` the handler answers
9007199254740992, while the exact sum is 9007199254740993. -/
theorem stats_revenue_counterexample :
    (getStats none none none none
        [{ _id := 1, doc := sampleOrder "5551234" (some [tenTimesZero]) }] =
      { status := 200, body := Payload.stats 1 0 0 (JSNum.ofInt 10) } ∧
      (JSNum.ofInt 10).toInt? = some 10 ∧
      specRevenue [{ _id := 1, doc := sampleOrder "5551234" (some [tenTimesZero]) }] = some 0) ∧
    (getStats none none none none
        [{ _id := 1, doc := sampleOrder "5551234" (some [bigItem, unitItem]) }] =
      { status := 200, body := Payload.stats 1 0 0 (JSNum.ofInt 9007199254740992) } ∧
      (JSNum.ofInt 9007199254740992).toInt? = some 9007199254740992 ∧
      specRevenue [{ _id := 1, doc := sampleOrder "5551234" (some [bigItem, unitItem]) }] =
        some 9007199254740993) ∧
    (revenue [{ _id := 1, doc := sampleOrder "5551234" (some [tenTimesZero]) }]).toInt? ≠
      specRevenue [{ _id := 1, doc := sampleOrder "5551234" (some [tenTimesZero]) }] ∧
    (revenue [{ _id := 1, doc := sampleOrder "5551234" (some [bigItem, unitItem]) }]).toInt? ≠
      specRevenue [{ _id := 1, doc := sampleOrder "5551234" (some [bigItem, unitItem]) }] := by
  decide

/-- C6: with no storage failure, `GET /api/stats` answers `total_orders` = the number of
stored orders, `confirmed_orders` = the number of orders with at least one item of status
`"confirmed"`, `delivered_orders` = the number of orders with at least one item of status
`"delivered"`; and appending an order that has both a confirmed and a delivered item
raises each of the three counts by exactly 1. -/
theorem stats_counts (orders : List StoredOrder) :
    getStats none none none none orders =
      { status := 200,
        body := Payload.stats orders.length
          (orders.filter (fun o => decide (hasItemWithStatus "confirmed" o))).length
          (orders.filter (fun o => decide (hasItemWithStatus "delivered" o))).length
          (revenue orders) } ∧
    ∀ o : StoredOrder, hasItemWithStatus "confirmed" o → hasItemWithStatus "delivered" o →
      getStats none none none none (orders ++ [o]) =
        { status := 200,
          body := Payload.stats (orders.length + 1)
            ((orders.filter (fun o => decide (hasItemWithStatus "confirmed" o))).length + 1)
            ((orders.filter (fun o => decide (hasItemWithStatus "delivered" o))).length + 1)
            (fadd (revenue orders) (orderTotal o)) } := by
  have htotal : ∀ l : List StoredOrder, countDocuments (fun _ => true) l = l.length := by
    intro l; simp [countDocuments]
  refine ⟨?_, fun o hc hd => ?_⟩
  · rw [getStats_ok, htotal, countDocuments_itemStatus, countDocuments_itemStatus]
  · rw [getStats_ok, htotal,
      countDocuments_append_match _ orders o ((matchesItemStatus_iff "confirmed" o).2 hc),
      countDocuments_append_match _ orders o ((matchesItemStatus_iff "delivered" o).2 hd),
      countDocuments_itemStatus, countDocuments_itemStatus, revenue_append]
    simp

/-- C6 (witness): one stored order without items, to which an order with a confirmed item
and a delivered item is appended. -/
theorem stats_counts_witness :
    hasItemWithStatus "confirmed"
        { _id := 2, doc := sampleOrder "5559999" (some [confirmedItem, deliveredItem]) } ∧
    hasItemWithStatus "delivered"
        { _id := 2, doc := sampleOrder "5559999" (some [confirmedItem, deliveredItem]) } ∧
    getStats none none none none [{ _id := 1, doc := sampleOrder "5551234" none }] =
      { status := 200, body := Payload.stats 1 0 0 (JSNum.ofInt 0) } ∧
    getStats none none none none
        ([{ _id := 1, doc := sampleOrder "5551234" none }] ++
          [{ _id := 2, doc := sampleOrder "5559999" (some [confirmedItem, deliveredItem]) }]) =
      { status := 200, body := Payload.stats 2 1 1 (JSNum.ofInt 17) } :=
  ⟨by decide, by decide,
    (stats_counts [{ _id := 1, doc := sampleOrder "5551234" none }]).1,
    (stats_counts [{ _id := 1, doc := sampleOrder "5551234" none }]).2
      { _id := 2, doc := sampleOrder "5559999" (some [confirmedItem, deliveredItem]) }
      (by decide) (by decide)⟩

/-- C8: in each of the five handlers a failing storage call is answered with status 500 and
the fixed body `{error: <message of the handler>}`, whatever the error thrown and, for the
stats handler, whichever of its four storage calls throws. -/
theorem storage_failure_gives_fixed_500 :
    (∀ (e : StorageError) (orders : List StoredOrder),
      getOrders (some e) orders =
        { status := 500, body := Payload.error "Failed to fetch orders" }) ∧
    (∀ (e : StorageError) (reservations : List Reservation),
      getReservations (some e) reservations =
        { status := 500, body := Payload.error "Failed to fetch reservations" }) ∧
    (∀ (e : StorageError) (f2 f3 f4 : Option StorageError) (orders : List StoredOrder),
      getStats (some e) f2 f3 f4 orders =
        { status := 500, body := Payload.error "Failed to fetch stats" }) ∧
    (∀ (e : StorageError) (f1 f3 f4 : Option StorageError) (orders : List StoredOrder),
      getStats f1 (some e) f3 f4 orders =
        { status := 500, body := Payload.error "Failed to fetch stats" }) ∧
    (∀ (e : StorageError) (f1 f2 f4 : Option StorageError) (orders : List StoredOrder),
      getStats f1 f2 (some e) f4 orders =
        { status := 500, body := Payload.error "Failed to fetch stats" }) ∧
    (∀ (e : StorageError) (f1 f2 f3 : Option StorageError) (orders : List StoredOrder),
      getStats f1 f2 f3 (some e) orders =
        { status := 500, body := Payload.error "Failed to fetch stats" }) ∧
    (∀ (e : StorageError) (body : OrderBody) (clock : Clock) (orders : List StoredOrder),
      (createOrder (some e) body clock orders).1 =
        { status := 500, body := Payload.error "Failed to create order" }) ∧
    (∀ (e : StorageError) (phone : String) (orders : List StoredOrder),
      getLatestOrder (some e) phone orders =
        { status := 500, body := Payload.error "Failed to fetch order" }) := by
  refine ⟨fun _ _ => rfl, fun _ _ => rfl, fun _ _ _ _ _ => rfl, ?_, ?_, ?_,
    fun _ _ _ _ => rfl, fun _ _ _ => rfl⟩
  · intro e f1 f3 f4 orders
    cases f1 <;> rfl
  · intro e f1 f2 f4 orders
    cases f1 <;> cases f2 <;> rfl
  · intro e f1 f2 f3 orders
    cases f1 <;> cases f2 <;> cases f3 <;> rfl

/-- C2 (as amended): the phone of the constructed order is the supplied phone verbatim when
it is present, non-empty and not `"unknown"`; otherwise (absent, empty or `"unknown"`) it is
`"call_"` followed by the decimal Unix time in milliseconds. -/
theorem phone_resolution (body : OrderBody) (clock : Clock) :
    (buildOrder body clock).phone =
      match body.phone with
      | some p => if p = "" ∨ p = "unknown" then "call_" ++ toString clock.now else p
      | none => "call_" ++ toString clock.now := by
  cases hp : body.phone with
  | none => simp [buildOrder, finalPhone, hp]
  | some p =>
      by_cases h1 : p = ""
      · subst h1; simp [buildOrder, finalPhone, hp, truthyStr]
      · by_cases h2 : p = "unknown"
        · subst h2; simp [buildOrder, finalPhone, hp, truthyStr]
        · simp [buildOrder, finalPhone, hp, truthyStr, h1, h2]

/-- C2 (counterexample): for the body `{ phone: "" }` the phone is present and is not
`"unknown"`, so the claimed rule keeps it verbatim (the empty string), while the handler
stores `"call_1700000000000"`. -/
theorem empty_phone_counterexample :
    emptyPhoneBody.phone = some "" ∧
    (buildOrder emptyPhoneBody sampleClock).phone = "call_1700000000000" ∧
    specPhone emptyPhoneBody.phone sampleClock.now = "" ∧
    (buildOrder emptyPhoneBody sampleClock).phone ≠
      specPhone emptyPhoneBody.phone sampleClock.now := by
  decide

/-- C4: whatever the phone field, a truthy (present, non-empty) `caller_phone` is stored with
exactly the supplied value and `phone_source` is `"extracted_from_call"`; otherwise the order
has no `caller_phone` and `phone_source` is `"provided_by_customer"`. -/
theorem caller_phone_and_source (body : OrderBody) (clock : Clock) :
    (∀ s : String, body.caller_phone = some s → s ≠ "" →
      (buildOrder body clock).caller_phone = some s ∧
      (buildOrder body clock).phone_source = "extracted_from_call") ∧
    (body.caller_phone = none ∨ body.caller_phone = some "" →
      (buildOrder body clock).caller_phone = none ∧
      (buildOrder body clock).phone_source = "provided_by_customer") := by
  constructor
  · intro s hs hne
    simp [buildOrder, hs, truthyStr, hne]
  · rintro (h | h) <;> simp [buildOrder, h, truthyStr]

/-- C4 (witness): the body `{ caller_phone: "5559999" }` without phone, and the empty body. -/
theorem caller_phone_and_source_witness :
    ((buildOrder callerOnlyBody sampleClock).caller_phone = some "5559999" ∧
      (buildOrder callerOnlyBody sampleClock).phone_source = "extracted_from_call") ∧
    ((buildOrder emptyBody sampleClock).caller_phone = none ∧
      (buildOrder emptyBody sampleClock).phone_source = "provided_by_customer") :=
  ⟨(caller_phone_and_source callerOnlyBody sampleClock).1 "5559999" rfl (by decide),
    (caller_phone_and_source emptyBody sampleClock).2 (Or.inl rfl)⟩

/-- C5: the constructed order has the fields `phone`, `items` (the supplied items, or the
empty sequence), `status = "confirmed"`, `created_at`, `order_type = "phone_only"`,
`phone_source`, plus `name`, `address`, `caller_phone` exactly when the supplied value is
truthy and then with the supplied value; with no storage failure it is that order which is
stored and answered. The body `{ phone: "5551234" }` gives the order of the claim. -/
theorem created_order_fields :
    (∀ (body : OrderBody) (clock : Clock),
      (buildOrder body clock).items = some (body.items.getD []) ∧
      (buildOrder body clock).status = "confirmed" ∧
      (buildOrder body clock).created_at = clock.iso ∧
      (buildOrder body clock).order_type = "phone_only" ∧
      (buildOrder body clock).name = (if truthyStr body.name then body.name else none) ∧
      (buildOrder body clock).address = (if truthyStr body.address then body.address else none) ∧
      (buildOrder body clock).caller_phone =
        (if truthyStr body.caller_phone then body.caller_phone else none) ∧
      (buildOrder body clock).fieldNames =
        ["phone", "items", "status", "created_at", "order_type"] ++
          (if truthyStr body.name then ["name"] else []) ++
          (if truthyStr body.address then ["address"] else []) ++
          (if truthyStr body.caller_phone then ["caller_phone"] else []) ++
          ["phone_source"]) ∧
    (∀ (body : OrderBody) (clock : Clock) (orders : List StoredOrder),
      createOrder none body clock orders =
        ({ status := 200,
           body := Payload.created "Order created successfully"
             { _id := nextId orders, doc := buildOrder body clock } },
         orders ++ [{ _id := nextId orders, doc := buildOrder body clock }])) ∧
    buildOrder phoneOnlyBody sampleClock =
      { phone := "5551234", items := some [], status := "confirmed",
        created_at := sampleClock.iso, order_type := "phone_only",
        name := none, address := none, caller_phone := none,
        phone_source := "provided_by_customer" } ∧
    (buildOrder phoneOnlyBody sampleClock).fieldNames =
      ["phone", "items", "status", "created_at", "order_type", "phone_source"] := by
  refine ⟨fun body clock => ?_, fun _ _ _ => rfl, by decide, by decide⟩
  refine ⟨?_, rfl, rfl, rfl, rfl, rfl, rfl, ?_⟩
  · simp [buildOrder, orEmpty_eq_getD]
  · cases hn : body.name <;> cases ha : body.address <;> cases hc : body.caller_phone <;>
      simp [Order.fieldNames, buildOrder, spreadIfTruthy, truthyStr, hn, ha, hc]

/-- C9 (as amended): `phone_source` tells whether a caller phone came with the request, not
where the stored phone comes from. If it is `"provided_by_customer"`, no truthy
`caller_phone` was supplied, the order has no `caller_phone`, and the stored phone is either
the phone supplied in the body or the synthesized `call_<millis>` placeholder; if it is
`"extracted_from_call"`, the order's `caller_phone` field (not its `phone`) is the supplied
`caller_phone`, which is non-empty. -/
theorem phone_source_meaning (body : OrderBody) (clock : Clock) :
    ((buildOrder body clock).phone_source = "provided_by_customer" →
      (body.caller_phone = none ∨ body.caller_phone = some "") ∧
      (buildOrder body clock).caller_phone = none ∧
      (body.phone = some (buildOrder body clock).phone ∨
        (buildOrder body clock).phone = "call_" ++ toString clock.now)) ∧
    ((buildOrder body clock).phone_source = "extracted_from_call" →
      (buildOrder body clock).caller_phone = body.caller_phone ∧
      ∃ s : String, body.caller_phone = some s ∧ s ≠ "") := by
  have hphone : body.phone = some (buildOrder body clock).phone ∨
      (buildOrder body clock).phone = "call_" ++ toString clock.now := by
    cases hp : body.phone with
    | none => right; simp [buildOrder, finalPhone, hp]
    | some p =>
        by_cases h : (truthyStr (some p) && p != "unknown") = true
        · left; simp [buildOrder, finalPhone, hp, h]
        · right; simp [buildOrder, finalPhone, hp, h]
  cases hc : body.caller_phone with
  | none => simp [buildOrder, hc, truthyStr] at hphone ⊢; exact hphone
  | some s =>
      by_cases hs : s = ""
      · subst hs; simp [buildOrder, hc, truthyStr] at hphone ⊢; exact hphone
      · simp [buildOrder, hc, truthyStr, hs]

/-- C9 (witness): the empty body gives `"provided_by_customer"`, the body
`{ caller_phone: "5559999" }` gives `"extracted_from_call"`. -/
theorem phone_source_meaning_witness :
    ((emptyBody.caller_phone = none ∨ emptyBody.caller_phone = some "") ∧
      (buildOrder emptyBody sampleClock).caller_phone = none ∧
      (emptyBody.phone = some (buildOrder emptyBody sampleClock).phone ∨
        (buildOrder emptyBody sampleClock).phone = "call_" ++ toString sampleClock.now)) ∧
    ((buildOrder callerOnlyBody sampleClock).caller_phone = callerOnlyBody.caller_phone ∧
      ∃ s : String, callerOnlyBody.caller_phone = some s ∧ s ≠ "") :=
  ⟨(phone_source_meaning emptyBody sampleClock).1 (by decide),
    (phone_source_meaning callerOnlyBody sampleClock).2 (by decide)⟩

/-- C9 (counterexample): for the empty body `phone_source` is `"provided_by_customer"` although
no phone was supplied and the stored phone is the synthesized `"call_1700000000000"`; for the
body `{ caller_phone: "5559999" }` it is `"extracted_from_call"` although the stored phone is
the synthesized placeholder and not the caller phone. -/
theorem phone_source_provenance_counterexample :
    ((buildOrder emptyBody sampleClock).phone_source = "provided_by_customer" ∧
      emptyBody.phone = none ∧
      (buildOrder emptyBody sampleClock).phone = "call_1700000000000") ∧
    ((buildOrder callerOnlyBody sampleClock).phone_source = "extracted_from_call" ∧
      callerOnlyBody.caller_phone = some "5559999" ∧
      (buildOrder callerOnlyBody sampleClock).phone = "call_1700000000000") ∧
    ¬ ((buildOrder emptyBody sampleClock).phone_source = "provided_by_customer" →
        emptyBody.phone = some (buildOrder emptyBody sampleClock).phone) ∧
    ¬ ((buildOrder callerOnlyBody sampleClock).phone_source = "extracted_from_call" →
        callerOnlyBody.caller_phone = some (buildOrder callerOnlyBody sampleClock).phone) := by
  decide

/-- C7: if every order of the collection has a non-empty phone, then after any sequence of
create-order requests (any bodies, any clock reads, the insertion failing or not) every
order of the collection still has a non-empty phone. -/
theorem phone_nonempty_invariant (orders : List StoredOrder) (requests : List CreateRequest)
    (h : ∀ o ∈ orders, o.doc.phone ≠ "") :
    ∀ o ∈ runCreates orders requests, o.doc.phone ≠ "" := by
  induction requests generalizing orders with
  | nil => exact h
  | cons r rs ih =>
      exact ih (createOrder r.fault r.body r.clock orders).2
        (createOrder_keeps_phones r.fault r.body r.clock orders h)

/-- C7 (witness): one stored order, then requests whose phone is absent, empty, `"unknown"`
and an ordinary number, and one request whose insertion fails. -/
theorem phone_nonempty_invariant_witness :
    (∀ o ∈ [({ _id := 1, doc := sampleOrder "5551234" none } : StoredOrder)],
      o.doc.phone ≠ "") ∧
    ∀ o ∈ runCreates [{ _id := 1, doc := sampleOrder "5551234" none }]
        [{ fault := none, body := emptyBody, clock := sampleClock },
         { fault := none, body := emptyPhoneBody, clock := sampleClock },
         { fault := none, body := unknownPhoneBody, clock := sampleClock },
         { fault := some { detail := "connection reset" }, body := phoneOnlyBody,
           clock := sampleClock },
         { fault := none, body := phoneOnlyBody, clock := sampleClock }],
      o.doc.phone ≠ "" :=
  ⟨by decide, phone_nonempty_invariant _ _ (by decide)⟩

/-- C10: when the phone of the request is `"unknown"` or absent, the stored phone is
`"call_"` followed by the decimal numeral of the clock read, a non-empty string of decimal
digits only; and two such requests with different clock reads get different phones. -/
theorem synthesized_phone_digits_injective (b1 b2 : OrderBody) (c1 c2 : Clock)
    (h1 : b1.phone = none ∨ b1.phone = some "unknown")
    (h2 : b2.phone = none ∨ b2.phone = some "unknown") :
    ((buildOrder b1 c1).phone = "call_" ++ toString c1.now ∧
      (toString c1.now).data ≠ [] ∧
      ∀ ch ∈ (toString c1.now).data, ch.isDigit = true) ∧
    (c1.now ≠ c2.now → (buildOrder b1 c1).phone ≠ (buildOrder b2 c2).phone) := by
  have hsyn : ∀ (b : OrderBody) (c : Clock), (b.phone = none ∨ b.phone = some "unknown") →
      (buildOrder b c).phone = "call_" ++ toString c.now := by
    intro b c hb
    rcases hb with hb | hb <;> simp [buildOrder, finalPhone, hb, truthyStr]
  refine ⟨⟨hsyn b1 c1 h1, (toString_nat_digits c1.now).1, (toString_nat_digits c1.now).2⟩, ?_⟩
  intro hne heq
  rw [hsyn b1 c1 h1, hsyn b2 c2 h2] at heq
  exact hne (toString_nat_injective _ _ (call_append_injective _ _ heq))

/-- C10 (witness): the body `{ phone: "unknown" }` at 1700000000000 ms and the empty body one
millisecond later. -/
theorem synthesized_phone_digits_injective_witness :
    (unknownPhoneBody.phone = none ∨ unknownPhoneBody.phone = some "unknown") ∧
    (emptyBody.phone = none ∨ emptyBody.phone = some "unknown") ∧
    sampleClock.now ≠ laterClock.now ∧
    ((buildOrder unknownPhoneBody sampleClock).phone = "call_" ++ toString sampleClock.now ∧
      (toString sampleClock.now).data ≠ [] ∧
      ∀ ch ∈ (toString sampleClock.now).data, ch.isDigit = true) ∧
    (buildOrder unknownPhoneBody sampleClock).phone ≠ (buildOrder emptyBody laterClock).phone :=
  ⟨by decide, by decide, by decide,
    (synthesized_phone_digits_injective unknownPhoneBody emptyBody sampleClock laterClock
      (by decide) (by decide)).1,
    (synthesized_phone_digits_injective unknownPhoneBody emptyBody sampleClock laterClock
      (by decide) (by decide)).2 (by decide)⟩

/-- C3: for a collection whose identifiers increase with insertion order and with no storage
failure, `GET /api/orders/:phone` answers 404 with the message `"Order not found"` if and
only if no stored order has exactly that phone; and when some order has it, the answer is 200
with one matching order, the one with the greatest identifier, which is the match inserted
last. -/
theorem latest_order_by_phone (p : String) (orders : List StoredOrder)
    (hids : orders.Pairwise (fun a b => a._id < b._id)) :
    ((getLatestOrder none p orders).status = 404 ↔ ∀ o ∈ orders, o.doc.phone ≠ p) ∧
    ((∀ o ∈ orders, o.doc.phone ≠ p) →
      getLatestOrder none p orders =
        { status := 404, body := Payload.message "Order not found" }) ∧
    ((∃ o ∈ orders, o.doc.phone = p) →
      ∃ latest, getLatestOrder none p orders = { status := 200, body := Payload.order latest } ∧
        latest ∈ orders ∧ latest.doc.phone = p ∧
        (∀ o ∈ orders, o.doc.phone = p → o._id ≤ latest._id) ∧
        (orders.filter (fun o => decide (o.doc.phone = p))).getLast? = some latest) := by
  rcases findLatestByPhone_cases p orders with ⟨hnil, hnone⟩ | ⟨latest, hone, hin, hp, hmax⟩
  · have hresp : getLatestOrder none p orders =
        { status := 404, body := Payload.message "Order not found" } := by
      simp [getLatestOrder, await, hnil]
    refine ⟨⟨fun _ => hnone, fun _ => by rw [hresp]⟩, fun _ => hresp, ?_⟩
    rintro ⟨o, ho, hpo⟩
    exact absurd hpo (hnone o ho)
  · have hresp : getLatestOrder none p orders =
        { status := 200, body := Payload.order latest } := by
      simp [getLatestOrder, await, hone]
    refine ⟨⟨fun h => ?_, fun h => absurd hp (h latest hin)⟩,
      fun h => absurd hp (h latest hin), fun _ => ⟨latest, hresp, hin, hp, hmax, ?_⟩⟩
    · rw [hresp] at h
      have h200 : (200 : Nat) = 404 := h
      omega
    · apply getLast?_of_increasing_ids
      · exact List.Pairwise.sublist (List.filter_sublist orders) hids
      · simp [List.mem_filter, hin, hp]
      · intro o ho
        have ho' := List.mem_filter.1 ho
        exact hmax o ho'.1 (by simpa using ho'.2)

/-- C3 (witness): three orders A, B, C inserted in that order with the same phone: the
handler answers C; a phone without stored order is answered 404. -/
theorem latest_order_by_phone_witness :
    List.Pairwise (fun a b : StoredOrder => a._id < b._id) [orderA, orderB, orderC] ∧
    (∃ o ∈ [orderA, orderB, orderC], o.doc.phone = "5551234") ∧
    (∀ o ∈ [orderA, orderB, orderC], o.doc.phone ≠ "5550000") ∧
    (∃ latest, getLatestOrder none "5551234" [orderA, orderB, orderC] =
        { status := 200, body := Payload.order latest } ∧
      latest ∈ [orderA, orderB, orderC] ∧ latest.doc.phone = "5551234" ∧
      (∀ o ∈ [orderA, orderB, orderC], o.doc.phone = "5551234" → o._id ≤ latest._id) ∧
      ([orderA, orderB, orderC].filter
        (fun o => decide (o.doc.phone = "5551234"))).getLast? = some latest) ∧
    getLatestOrder none "5550000" [orderA, orderB, orderC] =
      { status := 404, body := Payload.message "Order not found" } ∧
    getLatestOrder none "5551234" [orderA, orderB, orderC] =
      { status := 200, body := Payload.order orderC } :=
  ⟨by decide, by decide, by decide,
    (latest_order_by_phone "5551234" [orderA, orderB, orderC] (by decide)).2.2 (by decide),
    (latest_order_by_phone "5550000" [orderA, orderB, orderC] (by decide)).2.1 (by decide),
    by decide⟩

end Bhawarchi
